import Mathlib

/-!
Verification of the DNS-over-HTTPS query-resolution pipeline of the Root DNS
backend (src/handlers/doh.ts): the authority-vs-proxy decision of `handleDoH`
and the per-record-type answer formatting of `formatRecordData`.

The embedding is shallow and executable:

* JavaScript values that may appear as a record `data` payload are modelled by
  the inductive `Jv` (strings, integers, booleans, null, arrays, objects).
  Numbers are modelled as integers: every DNS field the formatter touches is
  integral, and `JSON.stringify` prints integral numbers without a decimal
  point.  JavaScript object-property lookup is last-occurrence-wins, property
  assignment on a plain object with an absent key appends the key; both are
  mirrored here.  A property assigned to an array value is dropped by the
  model (the claims under study quantify over object values only).
* `JSON.parse` / `JSON.stringify` are modelled by a fuel-indexed
  recursive-descent reader (`pVal`, `pItems`, `pFields`) and a printer
  (`jChars`).  The reader covers the integral fragment plus the escape
  sequences the printer can emit; unicode `\u` escapes and fractional or
  exponent number forms are outside the model (no stored value produced by
  serialising a `Jv` contains them).
* The Cloudflare Worker environment is explicit data: the `tlds`, `domains`
  and `records` tables are lists of rows, `CUSTOM_TLDS` is the raw
  comma-separated string.  The external wire codec (`dns-packet`) and the
  upstream `fetch` are parameters of `handleDoH`: a decoder returning `none`
  models `dnsPacket.decode` throwing, which the source catches in its
  generic `catch` block.
* String helpers (`split`, `join`, `trim`, `toLowerCase`, `toUpperCase`)
  are re-implemented over `List Char` with the exact JavaScript semantics
  (ASCII case mapping; `"".split(sep)` = `[""]`).
-/

/-- A JavaScript value as it can appear in a DNS answer `data` payload. -/
inductive Jv where
  | str (s : String)
  | num (n : Int)
  | bool (b : Bool)
  | null
  | arr (xs : List Jv)
  | obj (fields : List (String × Jv))

mutual

/-- Structural equality test for `Jv` (the nested inductive blocks deriving). -/
def jvBeq : Jv → Jv → Bool
  | .str a, .str b => a == b
  | .num a, .num b => a == b
  | .bool a, .bool b => a == b
  | .null, .null => true
  | .arr a, .arr b => jvBeqL a b
  | .obj a, .obj b => jvBeqF a b
  | _, _ => false

/-- Structural equality test for lists of `Jv`. -/
def jvBeqL : List Jv → List Jv → Bool
  | [], [] => true
  | x :: xs, y :: ys => jvBeq x y && jvBeqL xs ys
  | _, _ => false

/-- Structural equality test for field lists. -/
def jvBeqF : List (String × Jv) → List (String × Jv) → Bool
  | [], [] => true
  | (k1, v1) :: xs, (k2, v2) :: ys => k1 == k2 && jvBeq v1 v2 && jvBeqF xs ys
  | _, _ => false

end

mutual

/-- The equality test decides propositional equality (value part). -/
def jvBeqIff : ∀ a b : Jv, jvBeq a b = true ↔ a = b
  | .str _, .str _ => by simp [jvBeq]
  | .num _, .num _ => by simp [jvBeq]
  | .bool _, .bool _ => by simp [jvBeq]
  | .null, .null => by simp [jvBeq]
  | .arr x, .arr y => by simp [jvBeq, jvBeqLIff x y]
  | .obj x, .obj y => by simp [jvBeq, jvBeqFIff x y]
  | .str _, .num _ | .str _, .bool _ | .str _, .null | .str _, .arr _ | .str _, .obj _
  | .num _, .str _ | .num _, .bool _ | .num _, .null | .num _, .arr _ | .num _, .obj _
  | .bool _, .str _ | .bool _, .num _ | .bool _, .null | .bool _, .arr _ | .bool _, .obj _
  | .null, .str _ | .null, .num _ | .null, .bool _ | .null, .arr _ | .null, .obj _
  | .arr _, .str _ | .arr _, .num _ | .arr _, .bool _ | .arr _, .null | .arr _, .obj _
  | .obj _, .str _ | .obj _, .num _ | .obj _, .bool _ | .obj _, .null | .obj _, .arr _ => by
    simp [jvBeq]

/-- The equality test decides propositional equality (list part). -/
def jvBeqLIff : ∀ a b : List Jv, jvBeqL a b = true ↔ a = b
  | [], [] => by simp [jvBeqL]
  | x :: xs, y :: ys => by simp [jvBeqL, jvBeqIff x y, jvBeqLIff xs ys]
  | [], _ :: _ | _ :: _, [] => by simp [jvBeqL]

/-- The equality test decides propositional equality (field-list part). -/
def jvBeqFIff : ∀ a b : List (String × Jv), jvBeqF a b = true ↔ a = b
  | [], [] => by simp [jvBeqF]
  | (k1, v1) :: xs, (k2, v2) :: ys => by
    simp [jvBeqF, jvBeqIff v1 v2, jvBeqFIff xs ys, and_assoc]
  | [], _ :: _ | _ :: _, [] => by simp [jvBeqF]

end

instance : DecidableEq Jv := fun a b => decidable_of_iff _ (jvBeqIff a b)

/-- JavaScript property read `v.k`: last-occurrence-wins on objects, `none`
(undefined) on every other value. -/
def getField (v : Jv) (k : String) : Option Jv :=
  match v with
  | .obj fields => (fields.filter (fun f => f.1 == k)).getLast?.map (·.2)
  | _ => none

/-- The JavaScript test `typeof v === "object"` (arrays and null included). -/
def isObjectType : Jv → Bool
  | .obj _ => true
  | .arr _ => true
  | .null => true
  | _ => false

/-- JavaScript truthiness of a property read result (`undefined`, `null`,
`""`, `0` and `false` are falsy). -/
def jsTruthy : Option Jv → Bool
  | none => false
  | some (.str s) => !(s == "")
  | some (.num n) => !(n == 0)
  | some (.bool b) => b
  | some .null => false
  | some (.arr _) => true
  | some (.obj _) => true

/-- JavaScript property assignment `v.k = x` when `k` is known to be absent:
appends on objects, is dropped by the model on all other values. -/
def setField (v : Jv) (k : String) (x : Jv) : Jv :=
  match v with
  | .obj fields => .obj (fields ++ [(k, x)])
  | other => other

/-- ASCII upper-casing of one character, as `String.prototype.toUpperCase`
acts on the ASCII range. -/
def jsUpperChar (c : Char) : Char :=
  if 97 ≤ c.toNat ∧ c.toNat ≤ 122 then Char.ofNat (c.toNat - 32) else c

/-- ASCII `toUpperCase`. -/
def jsToUpper (s : String) : String := String.mk (s.data.map jsUpperChar)

/-- ASCII lower-casing of one character, as `String.prototype.toLowerCase`
acts on the ASCII range. -/
def jsLowerChar (c : Char) : Char :=
  if 65 ≤ c.toNat ∧ c.toNat ≤ 90 then Char.ofNat (c.toNat + 32) else c

/-- ASCII `toLowerCase`. -/
def jsToLower (s : String) : String := String.mk (s.data.map jsLowerChar)

/-- The decimal digit character for `d < 10`. -/
def decChar (d : Nat) : Char := Char.ofNat (48 + d)

/-- Decimal digits of a natural number, most significant first; the first
argument is fuel (`n` itself is always enough). -/
def natDigitsAux : Nat → Nat → List Char
  | 0, _ => []
  | fuel + 1, n => if n < 10 then [decChar n] else natDigitsAux fuel (n / 10) ++ [decChar (n % 10)]

/-- Decimal digits of a natural number, most significant first. -/
def natChars (n : Nat) : List Char := natDigitsAux (n + 1) n

/-- The characters `JSON.stringify` prints for an integral number. -/
def intChars (n : Int) : List Char :=
  if n < 0 then '-' :: natChars n.natAbs else natChars n.toNat

/-- The escaping `JSON.stringify` applies to one string character (the
fragment the model covers: quote, backslash and the common control chars). -/
def escChar (c : Char) : List Char :=
  if c = '"' then ['\\', '"']
  else if c = '\\' then ['\\', '\\']
  else if c = '\n' then ['\\', 'n']
  else if c = '\t' then ['\\', 't']
  else if c = '\r' then ['\\', 'r']
  else [c]

/-- Body of a JSON string literal. -/
def escList (s : String) : List Char := s.data.flatMap escChar

/-- A JSON string literal, quotes included. -/
def strLit (s : String) : List Char := '"' :: escList s ++ ['"']

mutual

/-- The characters `JSON.stringify` prints for a value (compact form, as the
record-management API stores structured record values). -/
def jChars : Jv → List Char
  | .str s => strLit s
  | .num n => intChars n
  | .bool b => if b then "true".data else "false".data
  | .null => "null".data
  | .arr xs => '[' :: jItems xs ++ [']']
  | .obj fs => '\x7b' :: jFields fs ++ ['\x7d']

/-- Comma-separated array elements. -/
def jItems : List Jv → List Char
  | [] => []
  | [x] => jChars x
  | x :: y :: xs => jChars x ++ ',' :: jItems (y :: xs)

/-- Comma-separated object members. -/
def jFields : List (String × Jv) → List Char
  | [] => []
  | [(k, v)] => strLit k ++ ':' :: jChars v
  | (k, v) :: f :: fs => strLit k ++ ':' :: jChars v ++ ',' :: jFields (f :: fs)

end

/-- A JSON whitespace character. -/
def isWsChar (c : Char) : Bool := c = ' ' ∨ c = '\n' ∨ c = '\t' ∨ c = '\r'

/-- Drop leading JSON whitespace. -/
def skipWs : List Char → List Char
  | [] => []
  | c :: rest => if isWsChar c then skipWs rest else c :: rest

/-- The effect of `String.prototype.trim` on the character list. -/
def trimChars (cs : List Char) : List Char :=
  ((cs.dropWhile isWsChar).reverse.dropWhile isWsChar).reverse

/-- Decode one escape character of a JSON string literal (`\u` is outside
the model). -/
def unescChar (c : Char) : Option Char :=
  if c = '"' then some '"'
  else if c = '\\' then some '\\'
  else if c = '/' then some '/'
  else if c = 'n' then some '\n'
  else if c = 't' then some '\t'
  else if c = 'r' then some '\r'
  else if c = 'b' then some (Char.ofNat 8)
  else if c = 'f' then some (Char.ofNat 12)
  else none

mutual

/-- Read the body of a JSON string literal after the opening quote, returning
the characters read and the remainder after the closing quote. -/
def pStrAux : List Char → Option (List Char × List Char)
  | [] => none
  | c :: rest =>
    if c = '"' then some ([], rest)
    else if c = '\\' then pStrEsc rest
    else if 32 ≤ c.toNat then (pStrAux rest).map (fun p => (c :: p.1, p.2))
    else none

/-- Read the character after a backslash and continue with the string body. -/
def pStrEsc : List Char → Option (List Char × List Char)
  | [] => none
  | e :: rest2 =>
    match unescChar e with
    | some u => (pStrAux rest2).map (fun p => (u :: p.1, p.2))
    | none => none

end

/-- Consume a maximal run of decimal digits, accumulating their value. -/
def pNatAux : List Char → Nat → Nat × List Char
  | [], acc => (acc, [])
  | c :: rest, acc =>
    if c.isDigit then pNatAux rest (acc * 10 + (c.toNat - 48)) else (acc, c :: rest)

/-- Read a natural number (at least one digit). -/
def pNat : List Char → Option (Nat × List Char)
  | [] => none
  | c :: rest => if c.isDigit then some (pNatAux rest (c.toNat - 48)) else none

/-- Expect the given literal characters at the head of the input. -/
def expectChars : List Char → List Char → Option (List Char)
  | [], cs => some cs
  | _ :: _, [] => none
  | l :: ls, c :: cs => if c = l then expectChars ls cs else none

mutual

/-- Fuel-indexed JSON value reader (the model of `JSON.parse`). -/
def pVal : Nat → List Char → Option (Jv × List Char)
  | 0, _ => none
  | fuel + 1, cs =>
    match skipWs cs with
    | [] => none
    | c :: rest =>
      if c = '\x7b' then
        match skipWs rest with
        | [] => none
        | d :: r2 =>
          if d = '\x7d' then some (.obj [], r2)
          else (pFields fuel (d :: r2)).map (fun p => (Jv.obj p.1, p.2))
      else if c = '[' then
        match skipWs rest with
        | [] => none
        | d :: r2 =>
          if d = ']' then some (.arr [], r2)
          else (pItems fuel (d :: r2)).map (fun p => (Jv.arr p.1, p.2))
      else if c = '"' then
        (pStrAux rest).map (fun p => (Jv.str (String.mk p.1), p.2))
      else if c = 't' then
        (expectChars ['r', 'u', 'e'] rest).map (fun r => (Jv.bool true, r))
      else if c = 'f' then
        (expectChars ['a', 'l', 's', 'e'] rest).map (fun r => (Jv.bool false, r))
      else if c = 'n' then
        (expectChars ['u', 'l', 'l'] rest).map (fun r => (Jv.null, r))
      else if c = '-' then
        (pNat rest).map (fun p => (Jv.num (-(p.1 : Int)), p.2))
      else if c.isDigit then
        (pNat (c :: rest)).map (fun p => (Jv.num (p.1 : Int), p.2))
      else none

/-- Read one or more comma-separated array elements and the closing bracket. -/
def pItems : Nat → List Char → Option (List Jv × List Char)
  | 0, _ => none
  | fuel + 1, cs =>
    match pVal fuel cs with
    | none => none
    | some (v, r) =>
      match skipWs r with
      | ',' :: r2 =>
        match pItems fuel r2 with
        | none => none
        | some (xs, r3) => some (v :: xs, r3)
      | ']' :: r2 => some ([v], r2)
      | _ => none

/-- Read one or more comma-separated object members and the closing brace. -/
def pFields : Nat → List Char → Option (List (String × Jv) × List Char)
  | 0, _ => none
  | fuel + 1, cs =>
    match skipWs cs with
    | '"' :: rest =>
      match pStrAux rest with
      | none => none
      | some (kcs, r) =>
        match skipWs r with
        | ':' :: r2 =>
          match pVal fuel r2 with
          | none => none
          | some (v, r3) =>
            match skipWs r3 with
            | ',' :: r4 =>
              match pFields fuel r4 with
              | none => none
              | some (fs, r5) => some ((String.mk kcs, v) :: fs, r5)
            | '\x7d' :: r4 => some ([(String.mk kcs, v)], r4)
            | _ => none
        | _ => none
    | _ => none

end

/-- Full `JSON.parse` on a character list: one value, then only whitespace. -/
def jsonParseChars (cs : List Char) : Option Jv :=
  match pVal (cs.length + 1) cs with
  | some (v, rest) => if skipWs rest = [] then some v else none
  | none => none

/-- The speculative parse at the top of `formatRecordData`: if the trimmed
value starts with a brace or bracket, try `JSON.parse` on the trimmed text;
on failure (or when no parse is attempted) keep the original string. -/
def specParse (value : String) : Jv :=
  let t := trimChars value.data
  match t with
  | c :: _ =>
    if c = '\x7b' ∨ c = '[' then
      match jsonParseChars t with
      | some v => v
      | none => .str value
    else .str value
  | [] => .str value

/-- The JavaScript idiom `p || d` for an optional numeric argument: `d` when
the argument is absent or zero (both falsy), the argument otherwise. -/
def jsOrP (p : Option Int) (d : Int) : Int :=
  match p with
  | none => d
  | some v => if v = 0 then d else v

/-- The JavaScript idiom `n || d` for a numeric value: `d` when `n` is zero. -/
def jsOrI (n : Int) (d : Int) : Int := if n = 0 then d else n

/-- Case labels of the `switch` that return the raw string unchanged. -/
def plainTags : List String := ["A", "AAAA", "CNAME", "NS", "PTR", "DNAME"]

/-- Case labels of the text-list family. -/
def textTags : List String := ["TXT", "SPF", "AVC", "NINFO"]

/-- Case labels of the DNSSEC / crypto / binary family (empty object on a
non-object value). -/
def dnssecTags : List String :=
  ["DS", "DNSKEY", "RRSIG", "NSEC", "NSEC3", "NSEC3PARAM", "DLV", "CDS", "CDNSKEY",
   "TA", "KEY", "TLSA", "SMIMEA", "CERT", "SSHFP", "IPSECKEY", "TKEY", "TSIG",
   "SIG", "RKEY", "HIP", "CSYNC", "ZONEMD", "TALINK", "AMTRELAY"]

/-- Case labels of the blob family that return the speculative parse result
unchanged. -/
def rawTags : List String :=
  ["DHCID", "EID", "NIMLOC", "ATMA", "APL", "EUI48", "EUI64", "OPENPGPKEY"]

/-- The per-record-type formatter of src/handlers/doh.ts (`formatRecordData`):
turns the stored flat string into the structured payload the wire encoder
expects.  `priority` is the stored numeric priority (`none` models a missing
argument). -/
def formatRecordData (type : String) (value : String) (priority : Option Int) : Jv :=
  let parsed := specParse value
  let t := jsToUpper type
  if plainTags.contains t then .str value
  else if textTags.contains t then
    match parsed with
    | .arr xs => .arr xs
    | _ => .arr [.str value]
  else if t = "MX" then
    if isObjectType parsed && jsTruthy (getField parsed "exchange") then parsed
    else .obj [("preference", .num (jsOrP priority 10)), ("exchange", .str value)]
  else if t = "URI" then
    if isObjectType parsed && jsTruthy (getField parsed "target") then parsed
    else .obj [("priority", .num (jsOrP priority 10)), ("weight", .num 1), ("target", .str value)]
  else if t = "KX" then
    if isObjectType parsed && jsTruthy (getField parsed "exchange") then parsed
    else .obj [("preference", .num (jsOrP priority 10)), ("exchange", .str value)]
  else if t = "PX" then
    if isObjectType parsed then parsed
    else .obj [("preference", .num (jsOrP priority 0)), ("map822", .str ""), ("mapx400", .str "")]
  else if t = "SRV" then
    if isObjectType parsed then
      if getField parsed "priority" = none then setField parsed "priority" (.num (jsOrP priority 0))
      else parsed
    else .obj [("priority", .num (jsOrP priority 0)), ("weight", .num 0), ("port", .num 0),
               ("target", .str value)]
  else if t = "SOA" then
    if isObjectType parsed then parsed else .obj []
  else if t = "HTTPS" ∨ t = "SVCB" then
    if isObjectType parsed then
      match getField parsed "priority", priority with
      | none, some p => setField parsed "priority" (.num p)
      | _, _ => parsed
    else .obj [("priority", .num (jsOrP priority 1)), ("target", .str "."), ("value", .obj [])]
  else if t = "NAPTR" then
    if isObjectType parsed then parsed else .obj []
  else if t = "CAA" then
    if isObjectType parsed then parsed
    else .obj [("flags", .num 0), ("tag", .str "issue"), ("value", .str value)]
  else if t = "HINFO" then
    if isObjectType parsed then parsed
    else .obj [("cpu", .str "INTEL-386"), ("os", .str "UNIX")]
  else if t = "LOC" then
    if isObjectType parsed then parsed else .obj []
  else if t = "GPOS" then
    if isObjectType parsed then parsed else .obj []
  else if t = "RP" then
    if isObjectType parsed then parsed else .obj []
  else if t = "AFSDB" then
    if isObjectType parsed then parsed else .obj []
  else if t = "RT" then
    if isObjectType parsed then parsed
    else .obj [("preference", .num (jsOrP priority 0)), ("intermediateHost", .str value)]
  else if dnssecTags.contains t then
    if isObjectType parsed then parsed else .obj []
  else if rawTags.contains t then parsed
  else .str value

/-- One question of a decoded DNS message (`class` is always `IN` and is not
consulted by the handler). -/
structure Question where
  name : String
  type : String
deriving DecidableEq

/-- A decoded DNS query message as `dnsPacket.decode` delivers it to the
handler: the id and the question section. -/
structure Packet where
  id : Nat
  questions : List Question
deriving DecidableEq

/-- One answer object handed to `dnsPacket.encode`; the source field `class`
is spelled `rclass` (`class` is reserved in Lean). -/
structure DnsAnswer where
  type : String
  rclass : String
  name : String
  data : Jv
  ttl : Int
deriving DecidableEq

/-- The argument of `dnsPacket.encode` for a locally-built response. -/
structure ResponseMsg where
  rtype : String
  id : Nat
  flags : Nat
  questions : List Question
  answers : List DnsAnswer
deriving DecidableEq

/-- Status and body of the upstream resolver response. -/
structure UpstreamResp where
  status : Nat
  body : List Nat
deriving DecidableEq

/-- A row of the `domains` table (the columns the handler reads). -/
structure DomainRow where
  id : Nat
  tld : String
  name : String
deriving DecidableEq

/-- A row of the `records` table (the columns the handler reads); `priority`
is `none` when the column is NULL. -/
structure RecordRow where
  domain_id : Nat
  type : String
  host : String
  value : String
  priority : Option Int
  ttl : Int
deriving DecidableEq

/-- The environment of the worker: the three tables and the `CUSTOM_TLDS`
variable (a raw comma-separated string, exactly as configured). -/
structure DohEnv where
  tlds : List String
  customTlds : String
  domains : List DomainRow
  records : List RecordRow
deriving DecidableEq

/-- Body of an HTTP response: either plain text or DNS wire bytes. -/
inductive HttpBody where
  | text (s : String)
  | wire (bytes : List Nat)
deriving DecidableEq

/-- The observable part of the HTTP response `handleDoH` produces: status,
body, and the Content-Type header when one is set. -/
structure HttpResponse where
  status : Nat
  body : HttpBody
  contentType : Option String
deriving DecidableEq

/-- JavaScript `s.split(sep)` for a one-character separator (auxiliary). -/
def splitCharAux (sep : Char) : List Char → List Char → List String
  | [], acc => [String.mk acc.reverse]
  | c :: rest, acc =>
    if c = sep then String.mk acc.reverse :: splitCharAux sep rest []
    else splitCharAux sep rest (c :: acc)

/-- JavaScript `s.split(sep)` for a one-character separator; never empty,
`"".split(sep) = [""]`. -/
def splitChar (sep : Char) (s : String) : List String := splitCharAux sep s.data []

/-- JavaScript `parts.join(".")`. -/
def joinDot : List String → String
  | [] => ""
  | [s] => s
  | s :: t :: rest => s ++ "." ++ joinDot (t :: rest)

/-- The last element of a list with a default (`parts[parts.length - 1]`). -/
def lastD : List String → String → String
  | [], d => d
  | [x], _ => x
  | _ :: y :: rest, d => lastD (y :: rest) d

/-- The second-to-last element when it exists (`parts[parts.length - 2]`,
`none` models the JavaScript `undefined`). -/
def secondLast : List String → Option String
  | [] => none
  | [_] => none
  | [y, _] => some y
  | _ :: y :: z :: rest => secondLast (y :: z :: rest)

/-- All elements but the last two (`parts.slice(0, parts.length - 2)`). -/
def dropLastTwo : List String → List String
  | x :: y :: z :: rest => x :: dropLastTwo (y :: z :: rest)
  | _ => []

/-- The `UPSTREAM_RESOLVERS` table of src/types.ts. -/
def upstreamResolvers (key : String) : Option String :=
  if key = "google" then some "https://8.8.8.8/dns-query"
  else if key = "cf" then some "https://1.1.1.1/dns-query"
  else if key = "quad9" then some "https://9.9.9.9/dns-query"
  else none

/-- The upstream endpoint the proxy path uses:
`UPSTREAM_RESOLVERS[provider] || UPSTREAM_RESOLVERS.google`. -/
def resolverUrl (provider : String) : String :=
  (upstreamResolvers provider).getD "https://8.8.8.8/dns-query"

/-- The `dnsPacket.AUTHORITATIVE_ANSWER` flag constant. -/
def authoritativeAnswerFlag : Nat := 1024

/-- One formatted answer object (lines 56-73 of the handler): the stored type
and value through the formatter, class `IN`, the original query name, and
`ttl || 300`. -/
def mkAnswer (question : Question) (r : RecordRow) : DnsAnswer :=
  { type := r.type, rclass := "IN", name := question.name,
    data := formatRecordData r.type r.value r.priority,
    ttl := jsOrI r.ttl 300 }

/-- The answer list a managed query produces (lines 43-74 of the handler):
look up the domain row by `(tld, name)`; if present, fetch the records whose
host matches exactly or is the wildcard, filter by question type (`ANY`
matches everything, `CNAME` records always pass), format each and attach
class, name and ttl (`ttl || 300`). -/
def dohAnswers (env : DohEnv) (tld domainName host : String) (question : Question) :
    List DnsAnswer :=
  match env.domains.find? (fun d => d.tld == tld && d.name == domainName) with
  | none => []
  | some d =>
    let results := env.records.filter
      (fun r => r.domain_id == d.id && (r.host == host || r.host == "*"))
    (results.filter
        (fun r => r.type == question.type || question.type == "ANY" || r.type == "CNAME")).map
      (mkAnswer question)

/-- The DoH handler of src/handlers/doh.ts.  `decode` and `encode` stand for
the external `dns-packet` codec (`decode body = none` models the decoder
throwing, which the source catches in its generic handler), `fetchUp url
body` for the upstream `fetch`.  The result captures status, body and
Content-Type of the produced `Response`. -/
def handleDoH (decode : List Nat → Option Packet) (encode : ResponseMsg → List Nat)
    (fetchUp : String → List Nat → UpstreamResp) (env : DohEnv)
    (method : String) (body : List Nat) (provider : String) : HttpResponse :=
  if method ≠ "POST" then ⟨405, .text "Method Not Allowed", none⟩
  else
    match decode body with
    | none => ⟨500, .text "Server Error", none⟩
    | some query =>
      match query.questions.head? with
      | none => ⟨400, .text "Invalid Query", none⟩
      | some question =>
        let parts := splitChar '.' (jsToLower question.name)
        let tld := lastD parts ""
        let tldRecord := env.tlds.contains tld
        let isSystemTld := (splitChar ',' env.customTlds).contains tld
        if !tldRecord && !isSystemTld then
          let resp := fetchUp (resolverUrl provider) body
          ⟨resp.status, .wire resp.body, some "application/dns-message"⟩
        else
          match secondLast parts with
          | none => ⟨404, .text "NXDOMAIN", none⟩
          | some domainName =>
            if domainName = "" then ⟨404, .text "NXDOMAIN", none⟩
            else
              let hostParts := dropLastTwo parts
              let host := if hostParts.length > 0 then joinDot hostParts else "@"
              ⟨200,
               .wire (encode
                 { rtype := "response", id := query.id, flags := authoritativeAnswerFlag,
                   questions := query.questions,
                   answers := dohAnswers env tld domainName host question }),
               some "application/dns-message"⟩

/-- A character the modelled serialisation round trip covers: printable, or
one of the control characters the printer escapes. -/
def wfChar (c : Char) : Bool := 32 ≤ c.toNat || c = '\n' || c = '\t' || c = '\r'

/-- A string whose serialisation the modelled reader can read back. -/
def strWf (s : String) : Bool := s.data.all wfChar

mutual

/-- Well-formedness of a value for the serialisation round trip (value part). -/
def jvWf : Jv → Bool
  | .str s => strWf s
  | .num _ => true
  | .bool _ => true
  | .null => true
  | .arr xs => jvWfL xs
  | .obj fs => jvWfF fs

/-- Well-formedness, list part. -/
def jvWfL : List Jv → Bool
  | [] => true
  | x :: xs => jvWf x && jvWfL xs

/-- Well-formedness, field-list part. -/
def jvWfF : List (String × Jv) → Bool
  | [] => true
  | (k, v) :: fs => strWf k && jvWf v && jvWfF fs

end

/-- Case labels whose branch returns an object-typed speculative parse result
verbatim, with no default-construction on present objects. -/
def objVerbatimTags : List String :=
  ["PX", "SOA", "NAPTR", "CAA", "HINFO", "LOC", "GPOS", "RP", "AFSDB", "RT"] ++
    dnssecTags ++ rawTags

/-- The shape a structured record value of the given supported type tag has
(the quantification domain of the round-trip law): array values for the
text-list family and the blob family, object values for the object families —
for MX and KX an object whose `exchange` is truthy, for URI an object whose
`target` is truthy. -/
def structuredValueOf (t : String) (v : Jv) : Bool :=
  match v with
  | .obj _ =>
    ((t == "MX" || t == "KX") && jsTruthy (getField v "exchange")) ||
    (t == "URI" && jsTruthy (getField v "target")) ||
    objVerbatimTags.contains t || t == "SRV" || t == "HTTPS" || t == "SVCB"
  | .arr _ => textTags.contains t || rawTags.contains t
  | _ => false

/-- The default-construction the formatter applies to a present object: SRV
gains `priority = priority || 0` when the field is missing, HTTPS/SVCB gain
`priority = priority` when the field is missing and the argument is present;
every other supported type returns the value untouched. -/
def withDefaults (t : String) (v : Jv) (p : Option Int) : Jv :=
  if t == "SRV" && (getField v "priority").isNone then
    setField v "priority" (.num (jsOrP p 0))
  else if (t == "HTTPS" || t == "SVCB") && (getField v "priority").isNone && p.isSome then
    setField v "priority" (.num (p.getD 0))
  else v

/-- A decoder stub for concrete instances: fails on an empty body (a DNS
message always carries a header), yields the fixed packet otherwise. -/
def constDecode (p : Packet) : List Nat → Option Packet :=
  fun bytes => if bytes.isEmpty then none else some p

/-- An encoder stub for concrete instances. -/
def encodeStub (m : ResponseMsg) : List Nat :=
  [m.id, m.flags, m.questions.length, m.answers.length]

/-- An upstream stub for concrete instances: status 200, the posted body
prefixed by a marker byte. -/
def fetchStub : String → List Nat → UpstreamResp := fun _ body => ⟨200, 7 :: body⟩

/-- The label list of the first question: lowercased name split on dots. -/
def queryParts (question : Question) : List String :=
  splitChar '.' (jsToLower question.name)

/-- The TLD of the first question: its last label. -/
def queryTld (question : Question) : String := lastD (queryParts question) ""

/-- The host the record lookup uses: the leading labels joined by dots, or
the apex marker when none remain. -/
def queryHost (question : Question) : String :=
  let hostParts := dropLastTwo (queryParts question)
  if hostParts.length > 0 then joinDot hostParts else "@"

/-- Whether a TLD is managed: present in the `tlds` table or a member of the
comma-separated `CUSTOM_TLDS` set. -/
def isManaged (env : DohEnv) (t : String) : Bool :=
  env.tlds.contains t || (splitChar ',' env.customTlds).contains t

/-!
Theorems.  First the behaviour of `handleDoH` on each of its control paths,
then the serialisation round trip, then one theorem per claim.
-/

/-- On a decodable POST whose first question has an unmanaged TLD, the
handler relays the upstream response. -/
theorem handleDoH_proxy (decode : List Nat → Option Packet) (encode : ResponseMsg → List Nat)
    (fetchUp : String → List Nat → UpstreamResp) (env : DohEnv)
    (body : List Nat) (provider : String) (q : Packet) (question : Question)
    (hdec : decode body = some q) (hq : q.questions.head? = some question)
    (hun : isManaged env (queryTld question) = false) :
    handleDoH decode encode fetchUp env "POST" body provider =
      ⟨(fetchUp (resolverUrl provider) body).status,
       .wire (fetchUp (resolverUrl provider) body).body,
       some "application/dns-message"⟩ := by
  rw [isManaged, Bool.or_eq_false_iff] at hun
  simp [handleDoH, hdec, hq, queryTld, queryParts] at *
  simp [hun.1, hun.2]

/-- On a decodable POST whose first question has a managed TLD and a
non-empty second-to-last label, the handler builds the authoritative local
response. -/
theorem handleDoH_local (decode : List Nat → Option Packet) (encode : ResponseMsg → List Nat)
    (fetchUp : String → List Nat → UpstreamResp) (env : DohEnv)
    (body : List Nat) (provider : String) (q : Packet) (question : Question)
    (domainName : String)
    (hdec : decode body = some q) (hq : q.questions.head? = some question)
    (hman : isManaged env (queryTld question) = true)
    (hdl : secondLast (queryParts question) = some domainName)
    (hne : domainName ≠ "") :
    handleDoH decode encode fetchUp env "POST" body provider =
      ⟨200,
       .wire (encode
         { rtype := "response", id := q.id, flags := authoritativeAnswerFlag,
           questions := q.questions,
           answers := dohAnswers env (queryTld question) domainName (queryHost question)
             question }),
       some "application/dns-message"⟩ := by
  have hman2 : (lastD (splitChar '.' (jsToLower question.name)) "") ∈ env.tlds ∨
      (lastD (splitChar '.' (jsToLower question.name)) "") ∈ splitChar ',' env.customTlds := by
    simpa [isManaged, queryTld, queryParts] using hman
  rw [queryParts] at hdl
  simp [handleDoH, hdec, hq, hdl, hne, queryHost, queryParts, queryTld]
  tauto

/-- On a decodable POST whose first question has a managed TLD but no
non-empty second-to-last label, the handler answers the NXDOMAIN shortcut. -/
theorem handleDoH_nx (decode : List Nat → Option Packet) (encode : ResponseMsg → List Nat)
    (fetchUp : String → List Nat → UpstreamResp) (env : DohEnv)
    (body : List Nat) (provider : String) (q : Packet) (question : Question)
    (hdec : decode body = some q) (hq : q.questions.head? = some question)
    (hman : isManaged env (queryTld question) = true)
    (hdl : secondLast (queryParts question) = none ∨
      secondLast (queryParts question) = some "") :
    handleDoH decode encode fetchUp env "POST" body provider =
      ⟨404, .text "NXDOMAIN", none⟩ := by
  have hman2 : (lastD (splitChar '.' (jsToLower question.name)) "") ∈ env.tlds ∨
      (lastD (splitChar '.' (jsToLower question.name)) "") ∈ splitChar ',' env.customTlds := by
    simpa [isManaged, queryTld, queryParts] using hman
  rcases hdl with h | h <;> rw [queryParts] at h <;>
    simp [handleDoH, hdec, hq, h] <;> tauto

/-- A list with exactly one element has no second-to-last element. -/
theorem secondLast_of_length_one (l : List String) (h : l.length = 1) :
    secondLast l = none := by
  match l with
  | [_] => rfl

/-- C1: for every decoded query whose last label (lowercased TLD of the first
question's name) is neither present in the TLD store nor a member of the
configured system-TLD set, handleDoH never answers locally: it POSTs the
original undecoded request body byte-for-byte to the selected upstream
resolver and returns a response whose status code and body are exactly the
upstream's, with content type application/dns-message. -/
theorem c1_unmanaged_tld_proxied (decode : List Nat → Option Packet)
    (encode : ResponseMsg → List Nat) (fetchUp : String → List Nat → UpstreamResp)
    (env : DohEnv) (body : List Nat) (provider : String) (q : Packet) (question : Question)
    (hdec : decode body = some q) (hq : q.questions.head? = some question)
    (hstore : env.tlds.contains (queryTld question) = false)
    (hsys : (splitChar ',' env.customTlds).contains (queryTld question) = false) :
    handleDoH decode encode fetchUp env "POST" body provider =
      ⟨(fetchUp (resolverUrl provider) body).status,
       .wire (fetchUp (resolverUrl provider) body).body,
       some "application/dns-message"⟩ :=
  handleDoH_proxy decode encode fetchUp env body provider q question hdec hq
    (by
      simp [isManaged]
      exact ⟨by simpa using hstore, by simpa using hsys⟩)

/-- Witness for C1: a query for `foo.bar.example` while only `shop` (store)
and `gabon` (system set) are managed is relayed from the upstream stub. -/
theorem c1_witness :
    handleDoH (constDecode ⟨7, [⟨"foo.bar.Example", "A"⟩]⟩) encodeStub fetchStub
        ⟨["shop"], "gabon", [], []⟩ "POST" [1, 2] "cf" =
      ⟨(fetchStub (resolverUrl "cf") [1, 2]).status,
       .wire (fetchStub (resolverUrl "cf") [1, 2]).body,
       some "application/dns-message"⟩ :=
  c1_unmanaged_tld_proxied (constDecode ⟨7, [⟨"foo.bar.Example", "A"⟩]⟩) encodeStub fetchStub
    ⟨["shop"], "gabon", [], []⟩ [1, 2] "cf" ⟨7, [⟨"foo.bar.Example", "A"⟩]⟩
    ⟨"foo.bar.Example", "A"⟩ rfl rfl (by decide) (by decide)

/-- C3 counterexample: an inbound POST whose body cannot be decoded (the
decoder fails on the empty body) is answered with HTTP 500 Server Error by
the generic catch handler, not with the HTTP 400 the claim states. -/
theorem c3_counterexample :
    constDecode ⟨0, []⟩ [] = none ∧
    handleDoH (constDecode ⟨0, []⟩) encodeStub fetchStub ⟨[], "gabon", [], []⟩
        "POST" [] "google" = ⟨500, .text "Server Error", none⟩ ∧
    (handleDoH (constDecode ⟨0, []⟩) encodeStub fetchStub ⟨[], "gabon", [], []⟩
        "POST" [] "google").status ≠ 400 := by
  refine ⟨rfl, rfl, by decide⟩

/-- C3 amended: for every inbound POST whose body cannot be decoded as a DNS
wire-format message, handleDoH fails with ServerError: HTTP status 500 and no
DNS wire body (the decoder throw is absorbed by the generic catch handler;
InvalidQuery / HTTP 400 is reserved for decodable messages with an empty
question section). -/
theorem c3_undecodable_body_server_error (decode : List Nat → Option Packet)
    (encode : ResponseMsg → List Nat) (fetchUp : String → List Nat → UpstreamResp)
    (env : DohEnv) (body : List Nat) (provider : String)
    (hdec : decode body = none) :
    handleDoH decode encode fetchUp env "POST" body provider =
      ⟨500, .text "Server Error", none⟩ := by
  simp [handleDoH, hdec]

/-- Witness for the amended C3: the stub decoder rejecting the empty body
produces the HTTP 500 response. -/
theorem c3_witness :
    handleDoH (constDecode ⟨0, []⟩) encodeStub fetchStub ⟨["shop"], "gabon", [], []⟩
        "POST" [] "quad9" = ⟨500, .text "Server Error", none⟩ :=
  c3_undecodable_body_server_error (constDecode ⟨0, []⟩) encodeStub fetchStub
    ⟨["shop"], "gabon", [], []⟩ [] "quad9" rfl

/-- C7: for every query whose TLD is managed but whose name has no
second-to-last label (a bare-TLD query, exactly one label), handleDoH
responds with HTTP 404 and the plain-text body "NXDOMAIN", producing no DNS
wire body. -/
theorem c7_bare_tld_nxdomain (decode : List Nat → Option Packet)
    (encode : ResponseMsg → List Nat) (fetchUp : String → List Nat → UpstreamResp)
    (env : DohEnv) (body : List Nat) (provider : String) (q : Packet) (question : Question)
    (hdec : decode body = some q) (hq : q.questions.head? = some question)
    (hman : isManaged env (queryTld question) = true)
    (hbare : (queryParts question).length = 1) :
    handleDoH decode encode fetchUp env "POST" body provider =
      ⟨404, .text "NXDOMAIN", none⟩ :=
  handleDoH_nx decode encode fetchUp env body provider q question hdec hq hman
    (Or.inl (secondLast_of_length_one _ hbare))

/-- Witness for C7: a bare query for the managed TLD `shop` is answered 404
NXDOMAIN. -/
theorem c7_witness :
    handleDoH (constDecode ⟨9, [⟨"shop", "A"⟩]⟩) encodeStub fetchStub
        ⟨["shop"], "gabon", [], []⟩ "POST" [3] "google" =
      ⟨404, .text "NXDOMAIN", none⟩ :=
  c7_bare_tld_nxdomain (constDecode ⟨9, [⟨"shop", "A"⟩]⟩) encodeStub fetchStub
    ⟨["shop"], "gabon", [], []⟩ [3] "google" ⟨9, [⟨"shop", "A"⟩]⟩ ⟨"shop", "A"⟩
    rfl rfl (by decide) (by decide)

/-- C8 counterexample: a decoded query whose question name is the empty
string (zero DNS labels) is not rejected with HTTP 400: its TLD is the empty
string, which is unmanaged here, so the query is proxied upstream and comes
back with the stub status 200. -/
theorem c8_counterexample :
    handleDoH (constDecode ⟨3, [⟨"", "A"⟩]⟩) encodeStub fetchStub
        ⟨["shop"], "gabon", [], []⟩ "POST" [5] "google" =
      ⟨200, .wire [7, 5], some "application/dns-message"⟩ ∧
    (handleDoH (constDecode ⟨3, [⟨"", "A"⟩]⟩) encodeStub fetchStub
        ⟨["shop"], "gabon", [], []⟩ "POST" [5] "google").status ≠ 400 := by
  refine ⟨rfl, by decide⟩

/-- C8 amended: for every decoded query whose question section contains no
question at all, handleDoH fails with InvalidQuery and HTTP status 400 (a
present question with an empty name is instead treated as having the empty
TLD and falls into the managed/unmanaged decision). -/
theorem c8_no_question_invalid_query (decode : List Nat → Option Packet)
    (encode : ResponseMsg → List Nat) (fetchUp : String → List Nat → UpstreamResp)
    (env : DohEnv) (body : List Nat) (provider : String) (q : Packet)
    (hdec : decode body = some q) (hq : q.questions = []) :
    handleDoH decode encode fetchUp env "POST" body provider =
      ⟨400, .text "Invalid Query", none⟩ := by
  simp [handleDoH, hdec, hq]

/-- Witness for the amended C8: a decoded packet with an empty question
section yields HTTP 400 Invalid Query. -/
theorem c8_witness :
    handleDoH (constDecode ⟨3, []⟩) encodeStub fetchStub ⟨["shop"], "gabon", [], []⟩
        "POST" [5] "google" = ⟨400, .text "Invalid Query", none⟩ :=
  c8_no_question_invalid_query (constDecode ⟨3, []⟩) encodeStub fetchStub
    ⟨["shop"], "gabon", [], []⟩ [5] "google" ⟨3, []⟩ rfl rfl

/-- C6: for every query under a managed TLD whose (tld, domain) pair has no
row in the domain store, handleDoH returns an authoritative DNS wire response
with zero answers and HTTP status 200 (NOERROR semantics: the authoritative
flag and no error shortcut), not NXDOMAIN and not HTTP 404. -/
theorem c6_unregistered_domain_empty_answer (decode : List Nat → Option Packet)
    (encode : ResponseMsg → List Nat) (fetchUp : String → List Nat → UpstreamResp)
    (env : DohEnv) (body : List Nat) (provider : String) (q : Packet) (question : Question)
    (domainName : String)
    (hdec : decode body = some q) (hq : q.questions.head? = some question)
    (hman : isManaged env (queryTld question) = true)
    (hdl : secondLast (queryParts question) = some domainName) (hne : domainName ≠ "")
    (hnorow : env.domains.find?
      (fun d => d.tld == queryTld question && d.name == domainName) = none) :
    handleDoH decode encode fetchUp env "POST" body provider =
      ⟨200,
       .wire (encode
         { rtype := "response", id := q.id, flags := authoritativeAnswerFlag,
           questions := q.questions, answers := [] }),
       some "application/dns-message"⟩ := by
  rw [handleDoH_local decode encode fetchUp env body provider q question domainName
    hdec hq hman hdl hne]
  simp [dohAnswers, hnorow]

/-- Witness for C6: a query for the unregistered `acme.shop` under the
managed TLD `shop` yields the empty-answer authoritative response with
status 200. -/
theorem c6_witness :
    handleDoH (constDecode ⟨5, [⟨"acme.shop", "A"⟩]⟩) encodeStub fetchStub
        ⟨["shop"], "gabon", [⟨1, "shop", "zzz"⟩], []⟩ "POST" [8] "google" =
      ⟨200,
       .wire (encodeStub
         { rtype := "response", id := 5, flags := authoritativeAnswerFlag,
           questions := [⟨"acme.shop", "A"⟩], answers := [] }),
       some "application/dns-message"⟩ :=
  c6_unregistered_domain_empty_answer (constDecode ⟨5, [⟨"acme.shop", "A"⟩]⟩) encodeStub
    fetchStub ⟨["shop"], "gabon", [⟨1, "shop", "zzz"⟩], []⟩ [8] "google"
    ⟨5, [⟨"acme.shop", "A"⟩]⟩ ⟨"acme.shop", "A"⟩ "acme" rfl rfl (by decide) (by decide)
    (by decide) (by decide)

/-- C4: for every query under a managed TLD that matches a registered domain,
a fetched record is included in the answer set if and only if its stored type
equals the question's type, or the question's type is ANY, or the record's
type is CNAME (the answer list is exactly the image of that filter); in
particular a CNAME record is answered regardless of the requested type, and
an ANY question returns every fetched record for the matched host. -/
theorem c4_type_filter (decode : List Nat → Option Packet)
    (encode : ResponseMsg → List Nat) (fetchUp : String → List Nat → UpstreamResp)
    (env : DohEnv) (body : List Nat) (provider : String) (q : Packet) (question : Question)
    (domainName : String) (d : DomainRow)
    (hdec : decode body = some q) (hq : q.questions.head? = some question)
    (hman : isManaged env (queryTld question) = true)
    (hdl : secondLast (queryParts question) = some domainName) (hne : domainName ≠ "")
    (hrow : env.domains.find?
      (fun r => r.tld == queryTld question && r.name == domainName) = some d) :
    (handleDoH decode encode fetchUp env "POST" body provider =
      ⟨200,
       .wire (encode
         { rtype := "response", id := q.id, flags := authoritativeAnswerFlag,
           questions := q.questions,
           answers := ((env.records.filter (fun r =>
               r.domain_id == d.id && (r.host == queryHost question || r.host == "*"))).filter
             (fun r =>
               r.type == question.type || question.type == "ANY" ||
                 r.type == "CNAME")).map (mkAnswer question) }),
       some "application/dns-message"⟩) ∧
    (∀ r ∈ env.records.filter (fun r =>
        r.domain_id == d.id && (r.host == queryHost question || r.host == "*")),
      r.type = "CNAME" →
        mkAnswer question r ∈
          ((env.records.filter (fun r =>
              r.domain_id == d.id && (r.host == queryHost question || r.host == "*"))).filter
            (fun r =>
              r.type == question.type || question.type == "ANY" ||
                r.type == "CNAME")).map (mkAnswer question)) ∧
    (question.type = "ANY" →
      ((env.records.filter (fun r =>
          r.domain_id == d.id && (r.host == queryHost question || r.host == "*"))).filter
        (fun r =>
          r.type == question.type || question.type == "ANY" ||
            r.type == "CNAME")).map (mkAnswer question) =
        (env.records.filter (fun r =>
          r.domain_id == d.id && (r.host == queryHost question || r.host == "*"))).map
          (mkAnswer question)) := by
  refine ⟨?_, ?_, ?_⟩
  · rw [handleDoH_local decode encode fetchUp env body provider q question domainName
      hdec hq hman hdl hne]
    simp [dohAnswers, hrow]
  · intro r hr hcname
    exact List.mem_map_of_mem _ (List.mem_filter.mpr ⟨hr, by simp [hcname]⟩)
  · intro hany
    congr 1
    refine List.filter_eq_self.mpr ?_
    intro r _
    simp [hany]

/-- Witness for C4: the managed domain `acme.shop` with an A record, a CNAME
record and a TXT record at the queried host answers an A question with
exactly the A and CNAME records. -/
theorem c4_witness :
    handleDoH
        (constDecode ⟨6, [⟨"www.acme.shop", "A"⟩]⟩) encodeStub fetchStub
        ⟨["shop"], "gabon", [⟨1, "shop", "acme"⟩],
         [⟨1, "A", "www", "203.0.113.5", some 0, 120⟩,
          ⟨1, "CNAME", "www", "other.acme.shop", some 0, 0⟩,
          ⟨1, "TXT", "www", "hello", some 0, 60⟩]⟩ "POST" [4] "google" =
      ⟨200,
       .wire (encodeStub
         { rtype := "response", id := 6, flags := authoritativeAnswerFlag,
           questions := [⟨"www.acme.shop", "A"⟩],
           answers :=
             [mkAnswer ⟨"www.acme.shop", "A"⟩ ⟨1, "A", "www", "203.0.113.5", some 0, 120⟩,
              mkAnswer ⟨"www.acme.shop", "A"⟩
                ⟨1, "CNAME", "www", "other.acme.shop", some 0, 0⟩] }),
       some "application/dns-message"⟩ := by
  have h := (c4_type_filter
    (constDecode ⟨6, [⟨"www.acme.shop", "A"⟩]⟩) encodeStub fetchStub
    ⟨["shop"], "gabon", [⟨1, "shop", "acme"⟩],
     [⟨1, "A", "www", "203.0.113.5", some 0, 120⟩,
      ⟨1, "CNAME", "www", "other.acme.shop", some 0, 0⟩,
      ⟨1, "TXT", "www", "hello", some 0, 60⟩]⟩ [4] "google"
    ⟨6, [⟨"www.acme.shop", "A"⟩]⟩ ⟨"www.acme.shop", "A"⟩ "acme"
    ⟨1, "shop", "acme"⟩ rfl rfl (by decide) (by decide) (by decide) (by decide)).1
  exact h

/-- C5: the record lookup for a managed query fetches exactly the records of
the matched domain whose host equals the computed query host or equals the
literal wildcard (the answer list is the image of that lookup filtered only
by type); when both an exact-host record and a wildcard record of a matching
type exist, both appear in the answer set — no host-specificity tie-break
excludes either. -/
theorem c5_wildcard_no_tiebreak (decode : List Nat → Option Packet)
    (encode : ResponseMsg → List Nat) (fetchUp : String → List Nat → UpstreamResp)
    (env : DohEnv) (body : List Nat) (provider : String) (q : Packet) (question : Question)
    (domainName : String) (d : DomainRow)
    (hdec : decode body = some q) (hq : q.questions.head? = some question)
    (hman : isManaged env (queryTld question) = true)
    (hdl : secondLast (queryParts question) = some domainName) (hne : domainName ≠ "")
    (hrow : env.domains.find?
      (fun r => r.tld == queryTld question && r.name == domainName) = some d) :
    (handleDoH decode encode fetchUp env "POST" body provider =
      ⟨200,
       .wire (encode
         { rtype := "response", id := q.id, flags := authoritativeAnswerFlag,
           questions := q.questions,
           answers := ((env.records.filter (fun r =>
               r.domain_id == d.id && (r.host == queryHost question || r.host == "*"))).filter
             (fun r =>
               r.type == question.type || question.type == "ANY" ||
                 r.type == "CNAME")).map (mkAnswer question) }),
       some "application/dns-message"⟩) ∧
    (∀ r1 ∈ env.records, ∀ r2 ∈ env.records,
      r1.domain_id = d.id → r2.domain_id = d.id →
      r1.host = queryHost question → r2.host = "*" →
      r1.type = question.type → r2.type = question.type →
        mkAnswer question r1 ∈
          ((env.records.filter (fun r =>
              r.domain_id == d.id && (r.host == queryHost question || r.host == "*"))).filter
            (fun r =>
              r.type == question.type || question.type == "ANY" ||
                r.type == "CNAME")).map (mkAnswer question) ∧
        mkAnswer question r2 ∈
          ((env.records.filter (fun r =>
              r.domain_id == d.id && (r.host == queryHost question || r.host == "*"))).filter
            (fun r =>
              r.type == question.type || question.type == "ANY" ||
                r.type == "CNAME")).map (mkAnswer question)) := by
  constructor
  · rw [handleDoH_local decode encode fetchUp env body provider q question domainName
      hdec hq hman hdl hne]
    simp [dohAnswers, hrow]
  · intro r1 h1 r2 h2 hd1 hd2 hh1 hh2 ht1 ht2
    constructor
    · exact List.mem_map_of_mem _
        (List.mem_filter.mpr ⟨List.mem_filter.mpr ⟨h1, by simp [hd1, hh1]⟩, by simp [ht1]⟩)
    · exact List.mem_map_of_mem _
        (List.mem_filter.mpr ⟨List.mem_filter.mpr ⟨h2, by simp [hd2, hh2]⟩, by simp [ht2]⟩)

/-- Witness for C5: with an exact-host A record and a wildcard A record both
present for `acme.shop`, an A query for `www.acme.shop` answers with both
records. -/
theorem c5_witness :
    (handleDoH (constDecode ⟨2, [⟨"www.acme.shop", "A"⟩]⟩) encodeStub fetchStub
        ⟨["shop"], "gabon", [⟨1, "shop", "acme"⟩],
         [⟨1, "A", "www", "203.0.113.5", some 0, 120⟩,
          ⟨1, "A", "*", "198.51.100.9", some 0, 120⟩]⟩ "POST" [4] "google" =
      ⟨200,
       .wire (encodeStub
         { rtype := "response", id := 2, flags := authoritativeAnswerFlag,
           questions := [⟨"www.acme.shop", "A"⟩],
           answers :=
             [mkAnswer ⟨"www.acme.shop", "A"⟩ ⟨1, "A", "www", "203.0.113.5", some 0, 120⟩,
              mkAnswer ⟨"www.acme.shop", "A"⟩ ⟨1, "A", "*", "198.51.100.9", some 0, 120⟩] }),
       some "application/dns-message"⟩) ∧
    mkAnswer ⟨"www.acme.shop", "A"⟩ ⟨1, "A", "www", "203.0.113.5", some 0, 120⟩ ∈
      [mkAnswer ⟨"www.acme.shop", "A"⟩ ⟨1, "A", "www", "203.0.113.5", some 0, 120⟩,
       mkAnswer ⟨"www.acme.shop", "A"⟩ ⟨1, "A", "*", "198.51.100.9", some 0, 120⟩] ∧
    mkAnswer ⟨"www.acme.shop", "A"⟩ ⟨1, "A", "*", "198.51.100.9", some 0, 120⟩ ∈
      [mkAnswer ⟨"www.acme.shop", "A"⟩ ⟨1, "A", "www", "203.0.113.5", some 0, 120⟩,
       mkAnswer ⟨"www.acme.shop", "A"⟩ ⟨1, "A", "*", "198.51.100.9", some 0, 120⟩] := by
  have h := c5_wildcard_no_tiebreak (constDecode ⟨2, [⟨"www.acme.shop", "A"⟩]⟩) encodeStub
    fetchStub
    ⟨["shop"], "gabon", [⟨1, "shop", "acme"⟩],
     [⟨1, "A", "www", "203.0.113.5", some 0, 120⟩,
      ⟨1, "A", "*", "198.51.100.9", some 0, 120⟩]⟩ [4] "google"
    ⟨2, [⟨"www.acme.shop", "A"⟩]⟩ ⟨"www.acme.shop", "A"⟩ "acme" ⟨1, "shop", "acme"⟩
    rfl rfl (by decide) (by decide) (by decide) (by decide)
  have h2 := h.2 ⟨1, "A", "www", "203.0.113.5", some 0, 120⟩ (by decide)
    ⟨1, "A", "*", "198.51.100.9", some 0, 120⟩ (by decide)
    rfl rfl (by decide) rfl rfl rfl
  exact ⟨h.1, h2.1, h2.2⟩

/-- C10: when the decoded inbound message carries more than one question,
only the first question determines the authority-vs-proxy decision, the name
decomposition and the answer set (the answer term mentions the first
question only, whatever the remaining questions are), while the
locally-built response still echoes the entire inbound question section. -/
theorem c10_first_question_decides (decode : List Nat → Option Packet)
    (encode : ResponseMsg → List Nat) (fetchUp : String → List Nat → UpstreamResp)
    (env : DohEnv) (body : List Nat) (provider : String) (q : Packet)
    (question : Question) (rest : List Question)
    (hdec : decode body = some q) (hqs : q.questions = question :: rest) :
    (isManaged env (queryTld question) = false →
      handleDoH decode encode fetchUp env "POST" body provider =
        ⟨(fetchUp (resolverUrl provider) body).status,
         .wire (fetchUp (resolverUrl provider) body).body,
         some "application/dns-message"⟩) ∧
    (∀ domainName, isManaged env (queryTld question) = true →
      secondLast (queryParts question) = some domainName → domainName ≠ "" →
      handleDoH decode encode fetchUp env "POST" body provider =
        ⟨200,
         .wire (encode
           { rtype := "response", id := q.id, flags := authoritativeAnswerFlag,
             questions := question :: rest,
             answers := dohAnswers env (queryTld question) domainName
               (queryHost question) question }),
         some "application/dns-message"⟩) := by
  have hq : q.questions.head? = some question := by rw [hqs]; rfl
  constructor
  · intro hun
    exact handleDoH_proxy decode encode fetchUp env body provider q question hdec hq hun
  · intro domainName hman hdl hne
    rw [handleDoH_local decode encode fetchUp env body provider q question domainName
      hdec hq hman hdl hne, hqs]

/-- Witness for C10: a two-question message whose first question is under the
managed `shop` answers locally from the first question while echoing both
questions. -/
theorem c10_witness :
    handleDoH (constDecode ⟨8, [⟨"www.acme.shop", "A"⟩, ⟨"foo.bar.example", "MX"⟩]⟩)
        encodeStub fetchStub
        ⟨["shop"], "gabon", [⟨1, "shop", "acme"⟩],
         [⟨1, "A", "www", "203.0.113.5", some 0, 120⟩]⟩ "POST" [4] "google" =
      ⟨200,
       .wire (encodeStub
         { rtype := "response", id := 8, flags := authoritativeAnswerFlag,
           questions := [⟨"www.acme.shop", "A"⟩, ⟨"foo.bar.example", "MX"⟩],
           answers := dohAnswers
             ⟨["shop"], "gabon", [⟨1, "shop", "acme"⟩],
              [⟨1, "A", "www", "203.0.113.5", some 0, 120⟩]⟩
             (queryTld ⟨"www.acme.shop", "A"⟩) "acme"
             (queryHost ⟨"www.acme.shop", "A"⟩) ⟨"www.acme.shop", "A"⟩ }),
       some "application/dns-message"⟩ :=
  (c10_first_question_decides
    (constDecode ⟨8, [⟨"www.acme.shop", "A"⟩, ⟨"foo.bar.example", "MX"⟩]⟩) encodeStub
    fetchStub
    ⟨["shop"], "gabon", [⟨1, "shop", "acme"⟩],
     [⟨1, "A", "www", "203.0.113.5", some 0, 120⟩]⟩ [4] "google"
    ⟨8, [⟨"www.acme.shop", "A"⟩, ⟨"foo.bar.example", "MX"⟩]⟩ ⟨"www.acme.shop", "A"⟩
    [⟨"foo.bar.example", "MX"⟩] rfl rfl).2 "acme" (by decide) (by decide) (by decide)

/-- C9 counterexample: an MX record whose stored value is the plain string
`mail.acme.shop` with stored priority 0 is formatted with preference 10 (the
JavaScript `priority || 10` treats 0 as falsy), not with the stored priority
0 the claim requires. -/
theorem c9_counterexample :
    formatRecordData "MX" "mail.acme.shop" (some 0) ≠
      Jv.obj [("preference", .num 0), ("exchange", .str "mail.acme.shop")] ∧
    formatRecordData "MX" "mail.acme.shop" (some 0) =
      Jv.obj [("preference", .num 10), ("exchange", .str "mail.acme.shop")] := by
  exact ⟨by decide, by decide⟩

/-- C9 amended: for every MX record whose stored value does not speculatively
parse to an object carrying a truthy `exchange` field (a plain string in
particular), formatRecordData returns the object with `preference` the
stored priority when that is present and non-zero, 10 when it is absent or
zero, and `exchange` the raw value string. -/
theorem c9_mx_plain_string (value : String) (p : Option Int)
    (h : (isObjectType (specParse value) &&
      jsTruthy (getField (specParse value) "exchange")) = false) :
    formatRecordData "MX" value p =
      .obj [("preference", .num (jsOrP p 10)), ("exchange", .str value)] := by
  have key : formatRecordData "MX" value p =
      (if (isObjectType (specParse value) &&
          jsTruthy (getField (specParse value) "exchange")) = true then specParse value
       else .obj [("preference", .num (jsOrP p 10)), ("exchange", .str value)]) := rfl
  rw [key, h]
  simp

/-- Witness for the amended C9: the plain string `mail.acme.shop` with
priority 20 formats to preference 20 and exchange `mail.acme.shop`, the
scenario of the specification. -/
theorem c9_witness :
    formatRecordData "MX" "mail.acme.shop" (some 20) =
      Jv.obj [("preference", .num 20), ("exchange", .str "mail.acme.shop")] :=
  c9_mx_plain_string "mail.acme.shop" (some 20) (by decide)

/-- A decimal digit character is a digit. -/
theorem decChar_isDigit (d : Nat) (h : d < 10) : (decChar d).isDigit = true := by
  interval_cases d <;> decide

/-- Reading a decimal digit character back gives the digit. -/
theorem decChar_toNat (d : Nat) (h : d < 10) : (decChar d).toNat - 48 = d := by
  interval_cases d <;> decide

/-- A decimal digit character is not whitespace and is none of the
dispatching characters of the value reader. -/
theorem decChar_head_facts (d : Nat) (h : d < 10) :
    isWsChar (decChar d) = false ∧ decChar d ≠ '\x7b' ∧ decChar d ≠ '[' ∧
    decChar d ≠ '"' ∧ decChar d ≠ 't' ∧ decChar d ≠ 'f' ∧ decChar d ≠ 'n' ∧
    decChar d ≠ '-' ∧ decChar d ≠ ']' ∧ decChar d ≠ '\x7d' := by
  interval_cases d <;> decide

/-- Every character the digit printer emits is a decimal digit character. -/
theorem natDigitsAux_mem (fuel : Nat) : ∀ n c, n < fuel → c ∈ natDigitsAux fuel n →
    ∃ d, d < 10 ∧ c = decChar d := by
  induction fuel with
  | zero => intro n c h hc; simp [natDigitsAux] at hc
  | succ f ih =>
    intro n c h hc
    by_cases h10 : n < 10
    · simp [natDigitsAux, h10] at hc
      exact ⟨n, h10, hc⟩
    · simp [natDigitsAux, h10] at hc
      rcases hc with hc | hc
      · exact ih (n / 10) c (by omega) hc
      · exact ⟨n % 10, by omega, hc⟩

/-- The digit printer emits at least one character. -/
theorem natDigitsAux_ne_nil (f n : Nat) : natDigitsAux (f + 1) n ≠ [] := by
  by_cases h10 : n < 10 <;> simp [natDigitsAux, h10]

/-- Folding the digit-accumulation step over the printed digits of `n`
starting from `acc` recovers `n` below `acc` shifted by the digit count. -/
theorem natDigitsAux_foldl (fuel : Nat) : ∀ n, n < fuel → ∀ acc : Nat,
    (natDigitsAux fuel n).foldl (fun a c => a * 10 + (c.toNat - 48)) acc =
      acc * 10 ^ (natDigitsAux fuel n).length + n := by
  induction fuel with
  | zero => intro n h; omega
  | succ f ih =>
    intro n h acc
    by_cases h10 : n < 10
    · simp [natDigitsAux, h10, decChar_toNat n h10]
    · rw [natDigitsAux, if_neg h10, List.foldl_append]
      rw [ih (n / 10) (by omega) acc]
      simp only [List.foldl_cons, List.foldl_nil, List.length_append, List.length_cons,
        List.length_nil]
      rw [decChar_toNat (n % 10) (by omega)]
      rw [pow_succ, ← mul_assoc]
      generalize acc * 10 ^ (natDigitsAux f (n / 10)).length = A
      omega

/-- Reading a run of digits followed by a non-digit accumulates exactly the
fold of the digits. -/
theorem pNatAux_append (ds : List Char) : ∀ acc rest, (∀ c ∈ ds, c.isDigit = true) →
    (∀ c, rest.head? = some c → c.isDigit = false) →
    pNatAux (ds ++ rest) acc =
      (ds.foldl (fun a c => a * 10 + (c.toNat - 48)) acc, rest) := by
  induction ds with
  | nil =>
    intro acc rest _ hb
    cases rest with
    | nil => rfl
    | cons c r => simp [pNatAux, hb c rfl]
  | cons c ds ih =>
    intro acc rest hd hb
    simp only [List.cons_append, pNatAux, hd c (by simp), if_true, List.foldl_cons]
    exact ih _ _ (fun x hx => hd x (by simp [hx])) hb

/-- Reading the printed digits of a natural number followed by a non-digit
returns the number and the remainder. -/
theorem pNat_natChars (n : Nat) (rest : List Char)
    (hb : ∀ c, rest.head? = some c → c.isDigit = false) :
    pNat (natChars n ++ rest) = some (n, rest) := by
  have hd : ∀ c ∈ natChars n, c.isDigit = true := fun c hc => by
    obtain ⟨d, hd10, hcd⟩ := natDigitsAux_mem (n + 1) n c (by omega) hc
    exact hcd ▸ decChar_isDigit d hd10
  rcases hds : natChars n with _ | ⟨c, ds2⟩
  · exact absurd hds (natDigitsAux_ne_nil n n)
  · have hfold := natDigitsAux_foldl (n + 1) n (by omega) 0
    rw [show natDigitsAux (n + 1) n = natChars n from rfl, hds] at hfold
    have hcdig : c.isDigit = true := hd c (by rw [hds]; simp)
    simp only [List.cons_append, pNat, hcdig, if_true]
    rw [pNatAux_append ds2 _ rest (fun x hx => hd x (by rw [hds]; simp [hx])) hb]
    simp only [List.foldl_cons] at hfold
    norm_num at hfold
    rw [hfold]

/-- Reading an escaped string body followed by the closing quote returns the
original characters and the remainder. -/
theorem pStrAux_escChars (cs : List Char) : ∀ rest, (∀ c ∈ cs, wfChar c = true) →
    pStrAux (cs.flatMap escChar ++ '"' :: rest) = some (cs, rest) := by
  induction cs with
  | nil => intro rest _; rfl
  | cons c cs ih =>
    intro rest hwf
    have hc := hwf c (by simp)
    have ihr := ih rest (fun x hx => hwf x (by simp [hx]))
    by_cases h1 : c = '"'
    · subst h1
      show (pStrAux (cs.flatMap escChar ++ '"' :: rest)).map
        (fun p => ('"' :: p.1, p.2)) = some ('"' :: cs, rest)
      rw [ihr]; rfl
    · by_cases h2 : c = '\\'
      · subst h2
        show (pStrAux (cs.flatMap escChar ++ '"' :: rest)).map
          (fun p => ('\\' :: p.1, p.2)) = some ('\\' :: cs, rest)
        rw [ihr]; rfl
      · by_cases h3 : c = '\n'
        · subst h3
          show (pStrAux (cs.flatMap escChar ++ '"' :: rest)).map
            (fun p => ('\n' :: p.1, p.2)) = some ('\n' :: cs, rest)
          rw [ihr]; rfl
        · by_cases h4 : c = '\t'
          · subst h4
            show (pStrAux (cs.flatMap escChar ++ '"' :: rest)).map
              (fun p => ('\t' :: p.1, p.2)) = some ('\t' :: cs, rest)
            rw [ihr]; rfl
          · by_cases h5 : c = '\r'
            · subst h5
              show (pStrAux (cs.flatMap escChar ++ '"' :: rest)).map
                (fun p => ('\r' :: p.1, p.2)) = some ('\r' :: cs, rest)
              rw [ihr]; rfl
            · have h32 : 32 ≤ c.toNat := by
                simp [wfChar, h3, h4, h5] at hc
                exact hc
              have he : escChar c = [c] := by simp [escChar, h1, h2, h3, h4, h5]
              show pStrAux (escChar c ++ cs.flatMap escChar ++ '"' :: rest) =
                some (c :: cs, rest)
              rw [he]
              simp only [List.cons_append, List.nil_append]
              simp [pStrAux, h1, h2, h32, ihr]

/-- Dropping leading whitespace leaves a non-whitespace head unchanged. -/
theorem skipWs_cons (c : Char) (l : List Char) (h : isWsChar c = false) :
    skipWs (c :: l) = c :: l := by simp [skipWs, h]

/-- The printer emits at least one character for every value. -/
theorem jChars_length_pos (v : Jv) : 1 ≤ (jChars v).length := by
  cases v with
  | str s => simp [jChars, strLit]
  | num n =>
    simp only [jChars, intChars]
    split
    · simp
    · rcases h : natChars n.toNat with _ | ⟨c, t⟩
      · exact absurd h (natDigitsAux_ne_nil _ _)
      · simp [h]
  | bool b => cases b <;> simp [jChars]
  | null => simp [jChars]
  | arr xs => simp [jChars]
  | obj fs => simp [jChars]

/-- The first character printed for a value is never whitespace, a closing
bracket or a closing brace. -/
theorem jChars_head (v : Jv) : ∃ c t, jChars v = c :: t ∧ isWsChar c = false ∧
    c ≠ ']' ∧ c ≠ '\x7d' := by
  cases v with
  | str s => exact ⟨'"', _, rfl, by decide, by decide, by decide⟩
  | num n =>
    by_cases hn : n < 0
    · exact ⟨'-', natChars n.natAbs, by simp [jChars, intChars, hn], by decide, by decide,
        by decide⟩
    · rcases h : natChars n.toNat with _ | ⟨c, t⟩
      · exact absurd h (natDigitsAux_ne_nil _ _)
      · have hc : c ∈ natChars n.toNat := by rw [h]; simp
        obtain ⟨d, hd, hcd⟩ := natDigitsAux_mem _ _ c (by omega) hc
        obtain ⟨f1, _, _, _, _, _, _, _, f9, f10⟩ := decChar_head_facts d hd
        exact ⟨c, t, by simp [jChars, intChars, hn, h], hcd ▸ f1, hcd ▸ f9, hcd ▸ f10⟩
  | bool b =>
    cases b with
    | false => exact ⟨'f', _, rfl, by decide, by decide, by decide⟩
    | true => exact ⟨'t', _, rfl, by decide, by decide, by decide⟩
  | null => exact ⟨'n', _, rfl, by decide, by decide, by decide⟩
  | arr xs => exact ⟨'[', _, rfl, by decide, by decide, by decide⟩
  | obj fs => exact ⟨'\x7b', _, rfl, by decide, by decide, by decide⟩

/-- The value reader on a digit-headed input reads a number. -/
theorem pVal_digit_head (f : Nat) (c : Char) (cs : List Char)
    (h1 : c.isDigit = true) (hws : isWsChar c = false) (e1 : c ≠ '\x7b') (e2 : c ≠ '[')
    (e3 : c ≠ '"') (e4 : c ≠ 't') (e5 : c ≠ 'f') (e6 : c ≠ 'n') (e7 : c ≠ '-') :
    pVal (f + 1) (c :: cs) =
      (pNat (c :: cs)).map (fun p => (Jv.num (p.1 : Int), p.2)) := by
  simp [pVal, skipWs_cons _ _ hws, e1, e2, e3, e4, e5, e6, e7, h1]

/-- A separator character is not a digit. -/
theorem sep_not_digit (c : Char) (h : c = ',' ∨ c = ']' ∨ c = '\x7d') :
    c.isDigit = false := by
  rcases h with h | h | h <;> subst h <;> decide

/-- Reading back what the printer wrote: the value reader returns the printed
value and the untouched remainder, for every well-formed value whose printed
form fits in the fuel (value part, array-items part, object-fields part). -/
theorem parse_jChars (fuel : Nat) :
    (∀ (v : Jv) (rest : List Char), jvWf v = true → (jChars v).length ≤ fuel →
      (∀ c, rest.head? = some c → c = ',' ∨ c = ']' ∨ c = '\x7d') →
      pVal fuel (jChars v ++ rest) = some (v, rest)) ∧
    (∀ (xs : List Jv) (rest : List Char), xs ≠ [] → jvWfL xs = true →
      (jItems xs).length + 1 ≤ fuel →
      pItems fuel (jItems xs ++ ']' :: rest) = some (xs, rest)) ∧
    (∀ (fs : List (String × Jv)) (rest : List Char), fs ≠ [] → jvWfF fs = true →
      (jFields fs).length + 1 ≤ fuel →
      pFields fuel (jFields fs ++ '\x7d' :: rest) = some (fs, rest)) := by
  induction fuel with
  | zero =>
    refine ⟨?_, ?_, ?_⟩
    · intro v rest _ hlen _
      have := jChars_length_pos v
      omega
    · intro xs rest _ _ hlen; omega
    · intro fs rest _ _ hlen; omega
  | succ f ih =>
    obtain ⟨ihV, ihI, ihF⟩ := ih
    refine ⟨?_, ?_, ?_⟩
    · -- value part
      intro v rest hwf hlen hb
      have hbd : ∀ c, rest.head? = some c → c.isDigit = false :=
        fun c hc => sep_not_digit c (hb c hc)
      cases v with
      | str s =>
        have hwfs : ∀ c ∈ s.data, wfChar c = true := by
          have hwf2 : strWf s = true := hwf
          simpa [strWf, List.all_eq_true] using hwf2
        have harr : jChars (.str s) ++ rest =
            '"' :: (s.data.flatMap escChar ++ '"' :: rest) := by
          simp [jChars, strLit, escList]
        rw [harr]
        rw [show pVal (f + 1) ('"' :: (s.data.flatMap escChar ++ '"' :: rest)) =
          (pStrAux (s.data.flatMap escChar ++ '"' :: rest)).map
            (fun p => (Jv.str (String.mk p.1), p.2)) from rfl]
        rw [pStrAux_escChars s.data rest hwfs]
        rfl
      | num n =>
        by_cases hneg : n < 0
        · have harr : jChars (.num n) ++ rest = '-' :: (natChars n.natAbs ++ rest) := by
            simp [jChars, intChars, hneg]
          rw [harr]
          rw [show pVal (f + 1) ('-' :: (natChars n.natAbs ++ rest)) =
            (pNat (natChars n.natAbs ++ rest)).map
              (fun p => (Jv.num (-(p.1 : Int)), p.2)) from rfl]
          rw [pNat_natChars n.natAbs rest hbd]
          show some (Jv.num (-((n.natAbs : Nat) : Int)), rest) = some (Jv.num n, rest)
          rw [show -((n.natAbs : Nat) : Int) = n from by omega]
        · have harr : jChars (.num n) ++ rest = natChars n.toNat ++ rest := by
            simp [jChars, intChars, hneg]
          rw [harr]
          rcases hds : natChars n.toNat with _ | ⟨c, t⟩
          · exact absurd hds (natDigitsAux_ne_nil _ _)
          · have hc : c ∈ natChars n.toNat := by rw [hds]; simp
            obtain ⟨d, hd, hcd⟩ := natDigitsAux_mem _ _ c (by omega) hc
            subst hcd
            obtain ⟨f1, f2, f3, f4, f5, f6, f7, f8, _, _⟩ := decChar_head_facts d hd
            have hform : decChar d :: (t ++ rest) = natChars n.toNat ++ rest := by
              rw [hds]; simp
            rw [List.cons_append,
              pVal_digit_head f _ _ (decChar_isDigit d hd) f1 f2 f3 f4 f5 f6 f7 f8,
              hform, pNat_natChars n.toNat rest hbd]
            show some (Jv.num ((n.toNat : Nat) : Int), rest) = some (Jv.num n, rest)
            rw [show ((n.toNat : Nat) : Int) = n from by omega]
      | bool b => cases b <;> rfl
      | null => rfl
      | arr xs =>
        cases xs with
        | nil => rfl
        | cons x xs2 =>
          have hwfl : jvWfL (x :: xs2) = true := hwf
          have hlen2 : (jItems (x :: xs2)).length + 1 ≤ f := by
            have : (jChars (.arr (x :: xs2))).length = (jItems (x :: xs2)).length + 2 := by
              simp [jChars]
            omega
          obtain ⟨c, t, hct, hcw, hcne1, _⟩ := jChars_head x
          have ht2 : ∃ t2, jItems (x :: xs2) = c :: t2 := by
            cases xs2 with
            | nil => exact ⟨t, by simp [jItems, hct]⟩
            | cons y ys => exact ⟨t ++ ',' :: jItems (y :: ys), by simp [jItems, hct]⟩
          obtain ⟨t2, ht2⟩ := ht2
          have harr : jChars (.arr (x :: xs2)) ++ rest = '[' :: (c :: (t2 ++ ']' :: rest)) := by
            simp [jChars, ht2]
          rw [harr]
          rw [show pVal (f + 1) ('[' :: (c :: (t2 ++ ']' :: rest))) =
            (match skipWs (c :: (t2 ++ ']' :: rest)) with
             | [] => none
             | d :: r2 =>
               if d = ']' then some (Jv.arr [], r2)
               else (pItems f (d :: r2)).map (fun p => (Jv.arr p.1, p.2))) from rfl]
          rw [skipWs_cons _ _ hcw]
          rw [show (match (c :: (t2 ++ ']' :: rest) : List Char) with
             | [] => none
             | d :: r2 =>
               if d = ']' then some (Jv.arr [], r2)
               else (pItems f (d :: r2)).map (fun p => (Jv.arr p.1, p.2))) =
            (if c = ']' then some (Jv.arr [], t2 ++ ']' :: rest)
             else (pItems f (c :: (t2 ++ ']' :: rest))).map
               (fun p => (Jv.arr p.1, p.2))) from rfl]
          rw [if_neg hcne1]
          rw [show c :: (t2 ++ ']' :: rest) = jItems (x :: xs2) ++ ']' :: rest by
            simp [ht2]]
          rw [ihI (x :: xs2) rest (by simp) hwfl hlen2]
          rfl
      | obj fs =>
        cases fs with
        | nil => rfl
        | cons kv fs2 =>
          obtain ⟨k, v0⟩ := kv
          have hwff : jvWfF ((k, v0) :: fs2) = true := hwf
          have hlen2 : (jFields ((k, v0) :: fs2)).length + 1 ≤ f := by
            have : (jChars (.obj ((k, v0) :: fs2))).length =
                (jFields ((k, v0) :: fs2)).length + 2 := by
              simp [jChars]
            omega
          have ht2 : ∃ t2, jFields ((k, v0) :: fs2) = '"' :: t2 := by
            cases fs2 with
            | nil => exact ⟨escList k ++ '"' :: ':' :: jChars v0, by simp [jFields, strLit]⟩
            | cons kv2 gs =>
              exact ⟨escList k ++ '"' :: ':' :: (jChars v0 ++ ',' :: jFields (kv2 :: gs)),
                by simp [jFields, strLit]⟩
          obtain ⟨t2, ht2⟩ := ht2
          have harr : jChars (.obj ((k, v0) :: fs2)) ++ rest =
              '\x7b' :: ('"' :: (t2 ++ '\x7d' :: rest)) := by
            simp [jChars, ht2]
          rw [harr]
          rw [show pVal (f + 1) ('\x7b' :: ('"' :: (t2 ++ '\x7d' :: rest))) =
            (if ('"' : Char) = '\x7d' then some (Jv.obj [], t2 ++ '\x7d' :: rest)
             else (pFields f ('"' :: (t2 ++ '\x7d' :: rest))).map
               (fun p => (Jv.obj p.1, p.2))) from rfl]
          rw [if_neg (by decide)]
          rw [show ('"' :: (t2 ++ '\x7d' :: rest) : List Char) =
            jFields ((k, v0) :: fs2) ++ '\x7d' :: rest by simp [ht2]]
          rw [ihF ((k, v0) :: fs2) rest (by simp) hwff hlen2]
          rfl
    · -- items part
      intro xs rest hne hwfl hlen
      cases xs with
      | nil => exact absurd rfl hne
      | cons x xs2 =>
        have hwx : jvWf x = true := by
          have h2 : (jvWf x && jvWfL xs2) = true := hwfl
          exact (Bool.and_eq_true_iff.mp h2).1
        have hwxs : jvWfL xs2 = true := by
          have h2 : (jvWf x && jvWfL xs2) = true := hwfl
          exact (Bool.and_eq_true_iff.mp h2).2
        cases xs2 with
        | nil =>
          have hlenx : (jChars x).length ≤ f := by
            have : jItems [x] = jChars x := rfl
            rw [this] at hlen
            omega
          rw [show pItems (f + 1) (jItems [x] ++ ']' :: rest) =
            (match pVal f (jChars x ++ ']' :: rest) with
             | none => none
             | some (v, r) =>
               match skipWs r with
               | ',' :: r2 =>
                 match pItems f r2 with
                 | none => none
                 | some (ys, r3) => some (v :: ys, r3)
               | ']' :: r2 => some ([v], r2)
               | _ => none) from rfl]
          rw [ihV x (']' :: rest) hwx hlenx
            (fun c hc => by simp at hc; subst hc; right; left; rfl)]
          rfl
        | cons y ys =>
          have hlens : (jChars x).length + 1 + ((jItems (y :: ys)).length + 1) ≤ f + 1 := by
            have : (jItems (x :: y :: ys)).length =
                (jChars x).length + 1 + (jItems (y :: ys)).length := by
              simp [jItems]; omega
            omega
          have harr : jItems (x :: y :: ys) ++ ']' :: rest =
              jChars x ++ (',' :: (jItems (y :: ys) ++ ']' :: rest)) := by
            simp [jItems]
          rw [harr]
          rw [show pItems (f + 1) (jChars x ++ (',' :: (jItems (y :: ys) ++ ']' :: rest))) =
            (match pVal f (jChars x ++ (',' :: (jItems (y :: ys) ++ ']' :: rest))) with
             | none => none
             | some (v, r) =>
               match skipWs r with
               | ',' :: r2 =>
                 match pItems f r2 with
                 | none => none
                 | some (ys2, r3) => some (v :: ys2, r3)
               | ']' :: r2 => some ([v], r2)
               | _ => none) from rfl]
          rw [ihV x (',' :: (jItems (y :: ys) ++ ']' :: rest)) hwx (by omega)
            (fun c hc => by simp at hc; subst hc; left; rfl)]
          show (match pItems f (jItems (y :: ys) ++ ']' :: rest) with
             | none => none
             | some (ys2, r3) => some (x :: ys2, r3)) = some (x :: y :: ys, rest)
          rw [ihI (y :: ys) rest (by simp) hwxs (by omega)]
    · -- fields part
      intro fs rest hne hwff hlen
      cases fs with
      | nil => exact absurd rfl hne
      | cons kv fs2 =>
        obtain ⟨k, v0⟩ := kv
        have hsplit : (strWf k && (jvWf v0 && jvWfF fs2)) = true := by
          have h2 : (strWf k && jvWf v0 && jvWfF fs2) = true := hwff
          simpa [Bool.and_assoc] using h2
        have hwk : strWf k = true := (Bool.and_eq_true_iff.mp hsplit).1
        have hwv : jvWf v0 = true := (Bool.and_eq_true_iff.mp (Bool.and_eq_true_iff.mp hsplit).2).1
        have hwfs2 : jvWfF fs2 = true := (Bool.and_eq_true_iff.mp (Bool.and_eq_true_iff.mp hsplit).2).2
        have hwfk : ∀ c ∈ k.data, wfChar c = true := by
          simpa [strWf, List.all_eq_true] using hwk
        cases fs2 with
        | nil =>
          have hlenv : (jChars v0).length ≤ f := by
            have : (jFields [(k, v0)]).length =
                (strLit k).length + 1 + (jChars v0).length := by
              simp [jFields]; omega
            omega
          have harr : jFields [(k, v0)] ++ '\x7d' :: rest =
              '"' :: (k.data.flatMap escChar ++ '"' :: (':' :: (jChars v0 ++ '\x7d' :: rest))) := by
            simp [jFields, strLit, escList]
          rw [harr]
          rw [show pFields (f + 1)
              ('"' :: (k.data.flatMap escChar ++ '"' :: (':' :: (jChars v0 ++ '\x7d' :: rest)))) =
            (match pStrAux (k.data.flatMap escChar ++ '"' :: (':' :: (jChars v0 ++ '\x7d' :: rest))) with
             | none => none
             | some (kcs, r) =>
               match skipWs r with
               | ':' :: r2 =>
                 match pVal f r2 with
                 | none => none
                 | some (v, r3) =>
                   match skipWs r3 with
                   | ',' :: r4 =>
                     match pFields f r4 with
                     | none => none
                     | some (gs, r5) => some ((String.mk kcs, v) :: gs, r5)
                   | '\x7d' :: r4 => some ([(String.mk kcs, v)], r4)
                   | _ => none
               | _ => none) from rfl]
          rw [pStrAux_escChars k.data _ hwfk]
          show (match pVal f (jChars v0 ++ '\x7d' :: rest) with
             | none => none
             | some (v, r3) =>
               match skipWs r3 with
               | ',' :: r4 =>
                 match pFields f r4 with
                 | none => none
                 | some (gs, r5) => some ((String.mk k.data, v) :: gs, r5)
               | '\x7d' :: r4 => some ([(String.mk k.data, v)], r4)
               | _ => none) = some ([(k, v0)], rest)
          rw [ihV v0 ('\x7d' :: rest) hwv hlenv
            (fun c hc => by simp at hc; subst hc; right; right; rfl)]
          rfl
        | cons kv2 gs =>
          have hlenv : (jChars v0).length ≤ f ∧
              (jFields (kv2 :: gs)).length + 1 ≤ f := by
            have : (jFields ((k, v0) :: kv2 :: gs)).length =
                (strLit k).length + 1 + (jChars v0).length + 1 +
                  (jFields (kv2 :: gs)).length := by
              simp [jFields]; omega
            have hsl : 2 ≤ (strLit k).length := by simp [strLit]
            omega
          have harr : jFields ((k, v0) :: kv2 :: gs) ++ '\x7d' :: rest =
              '"' :: (k.data.flatMap escChar ++ '"' ::
                (':' :: (jChars v0 ++ ',' :: (jFields (kv2 :: gs) ++ '\x7d' :: rest)))) := by
            simp [jFields, strLit, escList]
          rw [harr]
          rw [show pFields (f + 1)
              ('"' :: (k.data.flatMap escChar ++ '"' ::
                (':' :: (jChars v0 ++ ',' :: (jFields (kv2 :: gs) ++ '\x7d' :: rest))))) =
            (match pStrAux (k.data.flatMap escChar ++ '"' ::
                (':' :: (jChars v0 ++ ',' :: (jFields (kv2 :: gs) ++ '\x7d' :: rest)))) with
             | none => none
             | some (kcs, r) =>
               match skipWs r with
               | ':' :: r2 =>
                 match pVal f r2 with
                 | none => none
                 | some (v, r3) =>
                   match skipWs r3 with
                   | ',' :: r4 =>
                     match pFields f r4 with
                     | none => none
                     | some (gs2, r5) => some ((String.mk kcs, v) :: gs2, r5)
                   | '\x7d' :: r4 => some ([(String.mk kcs, v)], r4)
                   | _ => none
               | _ => none) from rfl]
          rw [pStrAux_escChars k.data _ hwfk]
          show (match pVal f (jChars v0 ++ ',' :: (jFields (kv2 :: gs) ++ '\x7d' :: rest)) with
             | none => none
             | some (v, r3) =>
               match skipWs r3 with
               | ',' :: r4 =>
                 match pFields f r4 with
                 | none => none
                 | some (gs2, r5) => some ((String.mk k.data, v) :: gs2, r5)
               | '\x7d' :: r4 => some ([(String.mk k.data, v)], r4)
               | _ => none) = some ((k, v0) :: kv2 :: gs, rest)
          rw [ihV v0 (',' :: (jFields (kv2 :: gs) ++ '\x7d' :: rest)) hwv hlenv.1
            (fun c hc => by simp at hc; subst hc; left; rfl)]
          show (match pFields f (jFields (kv2 :: gs) ++ '\x7d' :: rest) with
             | none => none
             | some (gs2, r5) => some ((String.mk k.data, v0) :: gs2, r5)) =
            some ((k, v0) :: kv2 :: gs, rest)
          rw [ihF (kv2 :: gs) rest (by simp) hwfs2 hlenv.2]

/-- Full JSON parse of a printed well-formed value returns the value. -/
theorem jsonParseChars_jChars (v : Jv) (hwf : jvWf v = true) :
    jsonParseChars (jChars v) = some v := by
  have h := (parse_jChars ((jChars v).length + 1)).1 v [] hwf (by omega) (by simp)
  rw [List.append_nil] at h
  simp [jsonParseChars, h, skipWs]

/-- Trimming leaves a list unchanged when first and last characters are not
whitespace. -/
theorem trimChars_of_ends (c d : Char) (l : List Char)
    (hc : isWsChar c = false) (hd : isWsChar d = false) :
    trimChars (c :: (l ++ [d])) = c :: (l ++ [d]) := by
  simp [trimChars, List.dropWhile_cons, hc, hd]

/-- The speculative parse of a string whose text is brace- or
bracket-headed, trim-stable and fully JSON-parsable returns the parsed
value. -/
theorem specParse_eq_of (s : String) (v : Jv)
    (h1 : trimChars s.data = s.data)
    (hhead : (∃ t, s.data = '\x7b' :: t) ∨ (∃ t, s.data = '[' :: t))
    (h2 : jsonParseChars s.data = some v) :
    specParse s = v := by
  rcases hhead with ⟨t, ht⟩ | ⟨t, ht⟩ <;>
    rw [ht] at h1 h2 <;> simp [specParse, ht, h1, h2]

/-- The speculative parse inverts the serialisation of every well-formed
object or array value. -/
theorem specParse_serialized (v : Jv) (hwf : jvWf v = true)
    (hshape : (∃ fs, v = Jv.obj fs) ∨ (∃ xs, v = Jv.arr xs)) :
    specParse (String.mk (jChars v)) = v := by
  apply specParse_eq_of
  · rcases hshape with ⟨fs, rfl⟩ | ⟨xs, rfl⟩
    · exact trimChars_of_ends '\x7b' '\x7d' (jFields fs) (by decide) (by decide)
    · exact trimChars_of_ends '[' ']' (jItems xs) (by decide) (by decide)
  · rcases hshape with ⟨fs, rfl⟩ | ⟨xs, rfl⟩
    · exact Or.inl ⟨jFields fs ++ ['\x7d'], rfl⟩
    · exact Or.inr ⟨jItems xs ++ [']'], rfl⟩
  · exact jsonParseChars_jChars v hwf

set_option maxHeartbeats 1000000 in
/-- C2 amended: for every RR type tag in the supported table and every
well-formed structured value v of that type — for MX and KX an object whose
`exchange` field is truthy, for URI an object whose `target` field is truthy,
for the other object families any object, for the text-list and blob families
any array — formatRecordData applied to the JSON serialization of v (with any
priority argument) returns v exactly, except for the fields the type's
default-construction policy supplies when they are missing (SRV gains
`priority = priority || 0`, HTTPS/SVCB gain `priority = priority` when the
field is absent and the argument present). -/
theorem c2_structured_roundtrip (t : String) (v : Jv) (p : Option Int)
    (hwf : jvWf v = true) (hs : structuredValueOf t v = true) :
    formatRecordData t (String.mk (jChars v)) p = withDefaults t v p := by
  cases v with
  | str s => simp [structuredValueOf] at hs
  | num n => simp [structuredValueOf] at hs
  | bool b => simp [structuredValueOf] at hs
  | null => simp [structuredValueOf] at hs
  | obj fs =>
    have hparse : specParse (String.mk (jChars (Jv.obj fs))) = Jv.obj fs :=
      specParse_serialized _ hwf (Or.inl ⟨fs, rfl⟩)
    simp only [structuredValueOf, Bool.or_eq_true, Bool.and_eq_true, beq_iff_eq] at hs
    rcases hs with ((((⟨h | h, htr⟩ | ⟨h, htr⟩) | hmem) | h) | h) | h
    · subst h
      conv_lhs => whnf
      rw [hparse, htr]
      rfl
    · subst h
      conv_lhs => whnf
      rw [hparse, htr]
      rfl
    · subst h
      conv_lhs => whnf
      rw [hparse, htr]
      rfl
    · have hmem2 : t ∈ objVerbatimTags := by simpa using hmem
      fin_cases hmem2 <;>
        first
          | exact hparse
          | (conv_lhs => whnf
             rw [hparse]
             rfl)
    · subst h
      conv_lhs => whnf
      rw [hparse]
      rcases hpr : getField (Jv.obj fs) "priority" with _ | w <;>
        rw [withDefaults, hpr] <;> rfl
    · subst h
      conv_lhs => whnf
      rw [hparse]
      rcases hpr : getField (Jv.obj fs) "priority" with _ | w <;>
        rcases p with _ | pr <;> rw [withDefaults, hpr] <;> rfl
    · subst h
      conv_lhs => whnf
      rw [hparse]
      rcases hpr : getField (Jv.obj fs) "priority" with _ | w <;>
        rcases p with _ | pr <;> rw [withDefaults, hpr] <;> rfl
  | arr xs =>
    have hparse : specParse (String.mk (jChars (Jv.arr xs))) = Jv.arr xs :=
      specParse_serialized _ hwf (Or.inr ⟨xs, rfl⟩)
    simp only [structuredValueOf, Bool.or_eq_true] at hs
    rcases hs with hmem | hmem
    · have hmem2 : t = "TXT" ∨ t = "SPF" ∨ t = "AVC" ∨ t = "NINFO" := by
        simpa [textTags] using hmem
      rcases hmem2 with rfl | rfl | rfl | rfl <;>
        · show (match specParse (String.mk (jChars (Jv.arr xs))) with
              | Jv.arr ys => Jv.arr ys
              | _ => Jv.arr [Jv.str (String.mk (jChars (Jv.arr xs)))]) =
            withDefaults _ (Jv.arr xs) p
          rw [hparse]
          rfl
    · have hmem2 : t ∈ rawTags := by simpa using hmem
      fin_cases hmem2 <;> exact hparse


/-- C2 counterexample: the structured MX value with preference 5 and empty
exchange has no missing field, yet formatting its own JSON serialization does
not reproduce it — the falsy `exchange` sends the formatter into the
synthesis branch, which rebuilds the tuple from the raw string and the
priority argument. -/
theorem c2_counterexample :
    formatRecordData "MX"
        (String.mk (jChars (Jv.obj [("preference", Jv.num 5), ("exchange", Jv.str "")])))
        (some 7) ≠
      Jv.obj [("preference", Jv.num 5), ("exchange", Jv.str "")] ∧
    formatRecordData "MX"
        (String.mk (jChars (Jv.obj [("preference", Jv.num 5), ("exchange", Jv.str "")])))
        (some 7) =
      Jv.obj [("preference", Jv.num 7),
        ("exchange",
         Jv.str (String.mk (jChars (Jv.obj [("preference", Jv.num 5), ("exchange", Jv.str "")]))))] := by
  exact ⟨by decide, by decide⟩

/-- Witness for the amended C2: an SRV object without a priority field
round-trips through its serialization gaining the defaulted priority, and an
MX object with a truthy exchange round-trips unchanged. -/
theorem c2_witness :
    formatRecordData "SRV"
        (String.mk (jChars (Jv.obj [("weight", Jv.num 5), ("port", Jv.num 443),
          ("target", Jv.str "x.y")]))) (some 7) =
      withDefaults "SRV"
        (Jv.obj [("weight", Jv.num 5), ("port", Jv.num 443), ("target", Jv.str "x.y")])
        (some 7) ∧
    formatRecordData "MX"
        (String.mk (jChars (Jv.obj [("preference", Jv.num 5),
          ("exchange", Jv.str "mx.example")]))) (some 7) =
      withDefaults "MX"
        (Jv.obj [("preference", Jv.num 5), ("exchange", Jv.str "mx.example")]) (some 7) :=
  ⟨c2_structured_roundtrip "SRV"
      (Jv.obj [("weight", Jv.num 5), ("port", Jv.num 443), ("target", Jv.str "x.y")])
      (some 7) (by decide) (by decide),
   c2_structured_roundtrip "MX"
      (Jv.obj [("preference", Jv.num 5), ("exchange", Jv.str "mx.example")])
      (some 7) (by decide) (by decide)⟩
